import Mathlib

/-
Shallow embedding of the GraphForestProgram simulation core
(classes/landpatch_base_class.py, treepatch_sub_class.py, rockpatch_sub_class.py,
firefighter_class.py, graph_builder_class.py, land_class.py).

Python object references are modelled as addresses into an explicit heap
(a list of patches, address = list index, allocation = append), because the
source stores neighbor relations as dictionaries from neighbor id to the
live neighbor object.  Dictionaries are modelled as insertion-ordered
association lists with the CPython semantics: writing to an existing key
updates the value in place, writing a fresh key appends at the end.
Random draws come from an explicit stream rng : Nat -> Nat; the source call
random.randint(1, 100) is modelled as rng k % 100 + 1, and
random.choice(xs) as indexing xs with rng k % xs.length.  Probabilities,
which the source holds as Python floats that are only ever compared against
integer rolls, are modelled as rationals.  Unbounded while loops take fuel
and return none when it runs out.
-/

namespace GraphForest

/-- Addresses of patch objects in the modelled heap. -/
abbrev Addr := Nat

/-- Variant-specific fields: a Treepatch carries its autocombustion
probability, lit flag and treestats health; a Rockpatch carries its
respawn probability. -/
inductive PatchKind where
  | tree (prob_autcombustion : ℚ) (lit_state : Bool) (tree_stats : ℤ)
  | rock (prob_treepatch : ℚ)
  deriving DecidableEq, Repr

/-- A land patch: the common fields of landpatch_base_class.Landpatch plus
the variant tag.  Neighbors map a neighbor id to the address of the live
neighbor object, mirroring the Dict[int, Landpatch] of the source. -/
structure Landpatch where
  patch_id : ℕ
  neighbors : List (ℕ × Addr)
  position : ℚ × ℚ
  color : Option ℤ
  firefighter : Bool
  kind : PatchKind
  deriving DecidableEq, Repr

/-- firefighter_class.Firefighter: id and skill level. -/
structure Firefighter where
  firefighter_id : ℕ
  avg_skill : ℤ
  deriving DecidableEq, Repr

/-- CPython dict write: an existing key keeps its place and gets the new
value, a fresh key is appended at the end. -/
def dictInsert {α : Type} : List (ℕ × α) → ℕ → α → List (ℕ × α)
  | [], k, v => [(k, v)]
  | (k0, v0) :: rest, k, v =>
      if k0 = k then (k, v) :: rest else (k0, v0) :: dictInsert rest k v

/-- CPython dict.pop(k): remove the entry with the given key. -/
def dictErase {α : Type} (d : List (ℕ × α)) (k : ℕ) : List (ℕ × α) :=
  d.filter (fun kv => kv.1 ≠ k)

/-- The keys of a dict in iteration order. -/
def dictKeys {α : Type} (d : List (ℕ × α)) : List ℕ := d.map Prod.fst

/-- Placeholder returned by out-of-range heap reads; every read performed
by the modelled code on a well-formed state is in range. -/
def dummyPatch : Landpatch :=
  { patch_id := 0, neighbors := [], position := (0, 0), color := none,
    firefighter := false, kind := PatchKind.rock 0 }

/-- Dereference an object address. -/
def heapGet (heap : List Landpatch) (a : Addr) : Landpatch :=
  heap.getD a dummyPatch

/-- Landpatch.get_patch_type: 1 for a Treepatch, 0 for a Rockpatch. -/
def Landpatch.get_patch_type (p : Landpatch) : ℕ :=
  match p.kind with
  | PatchKind.tree _ _ _ => 1
  | PatchKind.rock _ => 0

/-- The isinstance(p, Treepatch) test of the source. -/
def Landpatch.isTreepatch (p : Landpatch) : Bool :=
  match p.kind with
  | PatchKind.tree _ _ _ => true
  | PatchKind.rock _ => false

/-- Landpatch.get_neighbors_id: the keys of the neighbor dict. -/
def Landpatch.get_neighbors_id (p : Landpatch) : List ℕ :=
  p.neighbors.map Prod.fst

/-- Landpatch.set_firefighter. -/
def Landpatch.set_firefighter (p : Landpatch) (b : Bool) : Landpatch :=
  { p with firefighter := b }

/-- Landpatch.set_position. -/
def Landpatch.set_position (p : Landpatch) (pos : ℚ × ℚ) : Landpatch :=
  { p with position := pos }

/-- Treepatch.__tree_stats_max. -/
def tree_stats_max : ℤ := 256

/-- Treepatch.__tree_stats_min. -/
def tree_stats_min : ℤ := 0

/-- Treepatch.__init__: base init leaves position (0.0, 0.0) and
firefighter False; treestats starts at the maximum and the constructor
ends with set_color(256). -/
def Treepatch.make (patch_id : ℕ) (neighbors : List (ℕ × Addr))
    (lit_state : Bool) (prob_autcombustion : ℚ) : Landpatch :=
  { patch_id := patch_id, neighbors := neighbors, position := (0, 0),
    color := some 256, firefighter := false,
    kind := PatchKind.tree prob_autcombustion lit_state tree_stats_max }

/-- Rockpatch.__init__: base init defaults plus set_color(None). -/
def Rockpatch.make (patch_id : ℕ) (neighbors : List (ℕ × Addr))
    (prob_treepatch : ℚ) : Landpatch :=
  { patch_id := patch_id, neighbors := neighbors, position := (0, 0),
    color := none, firefighter := false,
    kind := PatchKind.rock prob_treepatch }

/-- Treepatch.get_lit_state (False on a non-tree, where the source would
not be called at all). -/
def Treepatch.get_lit_state (p : Landpatch) : Bool :=
  match p.kind with
  | PatchKind.tree _ lit _ => lit
  | PatchKind.rock _ => false

/-- Treepatch.get_tree_stats (0 on a non-tree, never consulted there). -/
def Treepatch.get_tree_stats (p : Landpatch) : ℤ :=
  match p.kind with
  | PatchKind.tree _ _ s => s
  | PatchKind.rock _ => 0

/-- Treepatch.set_lit_state. -/
def Treepatch.set_lit_state (p : Landpatch) (state : Bool) : Landpatch :=
  match p.kind with
  | PatchKind.tree prob _ s => { p with kind := PatchKind.tree prob state s }
  | PatchKind.rock _ => p

/-- Treepatch.set_tree_stats: store the argument, then, when it reaches
the maximum, clamp to the maximum and force the lit flag off.  There is no
clamp at the bottom. -/
def Treepatch.set_tree_stats (p : Landpatch) (stats : ℤ) : Landpatch :=
  match p.kind with
  | PatchKind.tree prob lit _ =>
      if stats ≥ tree_stats_max
      then { p with kind := PatchKind.tree prob false tree_stats_max }
      else { p with kind := PatchKind.tree prob lit stats }
  | PatchKind.rock _ => p

/-- random.randint(1, 100) fed from the raw stream value. -/
def randint_1_100 (r : ℕ) : ℕ := r % 100 + 1

/-- Treepatch.update: one autocombustion roll (success forces lit), then
grow by 10 capped at the maximum when unlit, shrink by 20 when lit, or
signal mutation when the shrink would cross below the minimum.  The second
component is the should-mutate return value. -/
def Treepatch.update (roll : ℕ) (p : Landpatch) : Landpatch × Bool :=
  match p.kind with
  | PatchKind.tree prob lit stats =>
      let lit1 := if (roll : ℚ) ≤ prob then true else lit
      if lit1 = false then
        let stats1 := if stats + 10 ≤ tree_stats_max then stats + 10 else tree_stats_max
        ({ p with kind := PatchKind.tree prob lit1 stats1, color := some stats1 }, false)
      else
        if stats - 20 ≥ tree_stats_min then
          let stats2 := stats - 20
          ({ p with kind := PatchKind.tree prob lit1 stats2, color := some (-256 - (-1 * stats2)) }, false)
        else
          ({ p with kind := PatchKind.tree prob lit1 stats }, true)
  | PatchKind.rock _ => (p, false)

/-- Rockpatch.update: one respawn roll; on success signal mutation. -/
def Rockpatch.update (roll : ℕ) (p : Landpatch) : Landpatch × Bool :=
  match p.kind with
  | PatchKind.rock prob => (p, decide ((roll : ℚ) ≤ prob))
  | PatchKind.tree _ _ _ => (p, false)

/-- Virtual dispatch of update over the two variants. -/
def Landpatch.update (roll : ℕ) (p : Landpatch) : Landpatch × Bool :=
  match p.kind with
  | PatchKind.tree _ _ _ => Treepatch.update roll p
  | PatchKind.rock _ => Rockpatch.update roll p

/-- Treepatch.mutate and Rockpatch.mutate: build the opposite variant with
the same id and the same neighbor dict; both constructors are called with
their default probability 0.1, and a fresh tree gets set_tree_stats(1). -/
def Landpatch.mutate (p : Landpatch) : Landpatch :=
  match p.kind with
  | PatchKind.tree _ _ _ => Rockpatch.make p.patch_id p.neighbors (1 / 10)
  | PatchKind.rock _ =>
      Treepatch.set_tree_stats (Treepatch.make p.patch_id p.neighbors false (1 / 10)) 1

/-- Firefighter.fight_fire: no-op when not lit, otherwise raise treestats
by the skill, capping the argument at 256 before the set. -/
def Firefighter.fight_fire (f : Firefighter) (treepatch : Landpatch) : Landpatch :=
  if Treepatch.get_lit_state treepatch = false then treepatch
  else if Treepatch.get_tree_stats treepatch + f.avg_skill ≤ 256
    then Treepatch.set_tree_stats treepatch (Treepatch.get_tree_stats treepatch + f.avg_skill)
    else Treepatch.set_tree_stats treepatch 256

/-- The first for-loop of Firefighter.move: scan the neighbor dict values
and return the id of the first lit, unoccupied Treepatch. -/
def firstLitNeighbor (heap : List Landpatch) (occupied : List ℕ) :
    List (ℕ × Addr) → Option ℕ
  | [] => none
  | (_, a) :: rest =>
      let lp := heapGet heap a
      if lp.isTreepatch && Treepatch.get_lit_state lp && !(occupied.contains lp.patch_id)
      then some lp.patch_id
      else firstLitNeighbor heap occupied rest

/-- The retry loop of Firefighter.move: draw random elements of ids until
one is unoccupied; fuel bounds the unbounded source loop. -/
def moveRetry (ids : List ℕ) (occupied : List ℕ) (rng : ℕ → ℕ) :
    ℕ → ℕ → Option (ℕ × ℕ)
  | 0, _ => none
  | fuel + 1, k =>
      match ids.get? (rng k % ids.length) with
      | none => none
      | some dest =>
          if occupied.contains dest
          then moveRetry ids occupied rng fuel (k + 1)
          else some (dest, k + 1)

/-- Firefighter.move.  The source reuses the name of its landpatch
parameter as the loop variable over the neighbor values, so after an
unsuccessful scan the random fallback draws from the neighbor ids of the
LAST NEIGHBOR rather than of the current patch; the embedding reproduces
that shadowing. -/
def Firefighter.move (heap : List Landpatch) (landpatch : Landpatch)
    (firefighter_positions : List ℕ) (rng : ℕ → ℕ) (fuel : ℕ) (k : ℕ) :
    Option (ℕ × ℕ) :=
  match firstLitNeighbor heap firefighter_positions landpatch.neighbors with
  | some dest => some (dest, k)
  | none =>
      let cursor :=
        match landpatch.neighbors.getLast? with
        | some (_, a) => heapGet heap a
        | none => landpatch
      moveRetry cursor.get_neighbors_id firefighter_positions rng fuel k

/-- land_class.Land state: the patch table (id to address), the heap of
live patch objects, the positions dict, the position-to-firefighter dict,
and the configured probability triple (ignition, transmission, respawn). -/
structure Land where
  heap : List Landpatch
  land_patches : List (ℕ × Addr)
  positions : List (ℕ × (ℚ × ℚ))
  firefighters : List (ℕ × Firefighter)
  probabilities : ℚ × ℚ × ℚ
  deriving DecidableEq, Repr

/-- Land.mutate_landpatch: allocate the replacement returned by mutate and
install it in the patch table under its id; the outgoing object stays in
the heap and other patches keep whatever address they cached for it. -/
def Land.mutate_landpatch (heap : List Landpatch) (land_patches : List (ℕ × Addr))
    (a : Addr) : List Landpatch × List (ℕ × Addr) :=
  let mutated := Landpatch.mutate (heapGet heap a)
  (heap ++ [mutated], dictInsert land_patches mutated.patch_id heap.length)

/-- Land.update_fire_transmition: walk the neighbor dict values of one
patch; for a neighbor that is a Treepatch and currently lit, draw one roll
against probabilities[0] and on success set that same neighbor lit. -/
def Land.update_fire_transmition (rng : ℕ → ℕ) (prob0 : ℚ) :
    List (ℕ × Addr) → List Landpatch → ℕ → List Landpatch × ℕ
  | [], heap, k => (heap, k)
  | (_, a) :: rest, heap, k =>
      let neighbor := heapGet heap a
      if neighbor.isTreepatch then
        if Treepatch.get_lit_state neighbor then
          let heap1 :=
            if ((randint_1_100 (rng k) : ℚ) < prob0)
            then heap.set a (Treepatch.set_lit_state neighbor true)
            else heap
          Land.update_fire_transmition rng prob0 rest heap1 (k + 1)
        else Land.update_fire_transmition rng prob0 rest heap k
      else Land.update_fire_transmition rng prob0 rest heap k

/-- First loop of Land.update: each firefighter on a lit Treepatch fights
the fire in place, every other firefighter is marked for relocation.  The
last component carries the address left in the loop variable landpatch,
which the second loop of the source goes on to read. -/
def Land.updateFightLoop (land_patches : List (ℕ × Addr)) :
    List (ℕ × Firefighter) → List Landpatch → List (ℕ × Firefighter) → Option Addr →
    List Landpatch × List (ℕ × Firefighter) × Option Addr
  | [], heap, to_move, leak => (heap, to_move, leak)
  | (pos, f) :: rest, heap, to_move, _ =>
      let a := (List.lookup pos land_patches).getD heap.length
      let lp := heapGet heap a
      if lp.isTreepatch then
        if Treepatch.get_lit_state lp then
          Land.updateFightLoop land_patches rest (heap.set a (Firefighter.fight_fire f lp)) to_move (some a)
        else Land.updateFightLoop land_patches rest heap (dictInsert to_move pos f) (some a)
      else Land.updateFightLoop land_patches rest heap (dictInsert to_move pos f) (some a)

/-- Second loop of Land.update: pop each marked firefighter, clear the
occupancy flag at its old patch, ask Firefighter.move for a destination
(the source passes the stale landpatch loop variable from the first loop),
then install the firefighter and set the destination occupancy flag. -/
def Land.updateMoveLoop (rng : ℕ → ℕ) (fuel : ℕ) (land_patches : List (ℕ × Addr))
    (leak : Option Addr) :
    List (ℕ × Firefighter) → List Landpatch → List (ℕ × Firefighter) → ℕ →
    Option (List Landpatch × List (ℕ × Firefighter) × ℕ)
  | [], heap, ff, k => some (heap, ff, k)
  | (pos, f) :: rest, heap, ff, k =>
      let ff1 := dictErase ff pos
      let a := (List.lookup pos land_patches).getD heap.length
      let heap1 := heap.set a (Landpatch.set_firefighter (heapGet heap a) false)
      let cur := heapGet heap1 (leak.getD heap1.length)
      match Firefighter.move heap1 cur (dictKeys ff1) rng fuel k with
      | none => none
      | some (dest, k1) =>
          let ff2 := dictInsert ff1 dest f
          let da := (List.lookup dest land_patches).getD heap1.length
          let heap2 := heap1.set da (Landpatch.set_firefighter (heapGet heap1 da) true)
          Land.updateMoveLoop rng fuel land_patches leak rest heap2 ff2 k1

/-- Third loop of Land.update, over the patch table values: a Treepatch
first runs fire transmission over its neighbor snapshot, then every patch
runs its own update, and a should-mutate result is installed through
mutate_landpatch. -/
def Land.updatePatchLoop (rng : ℕ → ℕ) (prob0 : ℚ) :
    List ℕ → List Landpatch → List (ℕ × Addr) → ℕ →
    List Landpatch × List (ℕ × Addr) × ℕ
  | [], heap, land_patches, k => (heap, land_patches, k)
  | key :: rest, heap, land_patches, k =>
      let a := (List.lookup key land_patches).getD heap.length
      let lp := heapGet heap a
      let fire := if lp.isTreepatch
                  then Land.update_fire_transmition rng prob0 lp.neighbors heap k
                  else (heap, k)
      let lp1 := heapGet fire.1 a
      let upd := Landpatch.update (randint_1_100 (rng fire.2)) lp1
      let heap2 := fire.1.set a upd.1
      if upd.2 then
        let m := Land.mutate_landpatch heap2 land_patches a
        Land.updatePatchLoop rng prob0 rest m.1 m.2 (fire.2 + 1)
      else Land.updatePatchLoop rng prob0 rest heap2 land_patches (fire.2 + 1)

/-- Land.update: the three loops in source order.  The rng index threads
through every random draw; fuel bounds the unbounded movement retry. -/
def Land.update (rng : ℕ → ℕ) (fuel : ℕ) (L : Land) (k : ℕ) : Option (Land × ℕ) :=
  let ph1 := Land.updateFightLoop L.land_patches L.firefighters L.heap [] none
  match Land.updateMoveLoop rng fuel L.land_patches ph1.2.2 ph1.2.1 ph1.1 L.firefighters k with
  | none => none
  | some (heapB, ffB, k1) =>
      let ph3 := Land.updatePatchLoop rng L.probabilities.1 (dictKeys L.land_patches) heapB L.land_patches k1
      some ({ L with heap := ph3.1, land_patches := ph3.2.1, firefighters := ffB }, ph3.2.2)

/-- Land.spawn_firefighters loop body: choose a random position key, build
the next firefighter, write it into the position dict (overwriting any
entry already there) and set the occupancy flag of that patch. -/
def Land.spawnLoop (rng : ℕ → ℕ) (skill : ℤ) :
    ℕ → ℕ → ℕ → Land → Option (Land × ℕ)
  | 0, _, k, L => some (L, k)
  | remaining + 1, spawned, k, L =>
      match (dictKeys L.positions).get? (rng k % (dictKeys L.positions).length) with
      | none => none
      | some spawn_position =>
          let fireman : Firefighter := { firefighter_id := spawned, avg_skill := skill }
          let a := (List.lookup spawn_position L.land_patches).getD L.heap.length
          let L1 : Land := { L with
            firefighters := dictInsert L.firefighters spawn_position fireman,
            heap := L.heap.set a (Landpatch.set_firefighter (heapGet L.heap a) true) }
          Land.spawnLoop rng skill remaining (spawned + 1) (k + 1) L1

/-- Land.spawn_firefighters: spawn the configured number of firefighters
at random position keys. -/
def Land.spawn_firefighters (rng : ℕ → ℕ) (number : ℕ) (skill : ℤ) (k : ℕ)
    (L : Land) : Option (Land × ℕ) :=
  Land.spawnLoop rng skill number 0 k L

/-- The while loop of Land.validate_graph: the worklist starts as the
whole key list of positions; each iteration pops the last entry, skips it
when already validated, otherwise appends its neighbor ids, strips every
occurrence of the entry from the worklist and marks it validated.  Fuel
bounds the loop; the result is the validated count. -/
def Land.validateLoop (heap : List Landpatch) (land_patches : List (ℕ × Addr)) :
    ℕ → List ℕ → List ℕ → Option ℕ
  | 0, unchecked, validated => if unchecked.isEmpty then some validated.length else none
  | fuel + 1, unchecked, validated =>
      match unchecked.getLast? with
      | none => some validated.length
      | some edge =>
          let rest := unchecked.dropLast
          if validated.contains edge then
            Land.validateLoop heap land_patches fuel rest validated
          else
            let nbrs := (heapGet heap ((List.lookup edge land_patches).getD heap.length)).get_neighbors_id
            Land.validateLoop heap land_patches fuel
              ((rest ++ nbrs).filter (fun x => x ≠ edge)) (validated ++ [edge])

/-- Land.validate_graph: run the worklist loop over the position keys and
compare the validated count with the number of position keys. -/
def Land.validate_graph (fuel : ℕ) (heap : List Landpatch)
    (positions : List (ℕ × (ℚ × ℚ))) (land_patches : List (ℕ × Addr)) : Option Bool :=
  (Land.validateLoop heap land_patches fuel (dictKeys positions) []).map
    (fun n => n == (dictKeys positions).length)

/-- graph_builder_class.GraphBuilder state: its own patch dict (id to
patch object, no aliasing is exercised by the build counters), the
configured landscape percentage, the ignition and respawn probability
slots, and the two running counters. -/
structure GraphBuilder where
  land_patches : List (ℕ × Landpatch)
  landscape : ℚ
  prob_ignition : ℚ
  prob_respawn : ℚ
  number_of_rocks : ℕ
  number_of_trees : ℕ
  deriving DecidableEq, Repr

/-- GraphBuilder.__init__ for a fresh run: Land passes an empty patch dict
and both counters start at zero. -/
def GraphBuilder.init (landscape prob_ignition prob_respawn : ℚ) : GraphBuilder :=
  { land_patches := [], landscape := landscape, prob_ignition := prob_ignition,
    prob_respawn := prob_respawn, number_of_rocks := 0, number_of_trees := 0 }

/-- GraphBuilder.create_landpatch: compare the running tree ratio with the
target ratio landscape/100; below target create a Treepatch with the
ignition probability, otherwise a Rockpatch with the respawn probability;
set its position and write it into the dict under its id. -/
def GraphBuilder.create_landpatch (b : GraphBuilder) (patch_id : ℕ) (pos : ℚ × ℚ) :
    GraphBuilder :=
  let target_percentage_of_trees := b.landscape / 100
  let current_tree_percentage : ℚ :=
    if 0 < b.land_patches.length
    then (b.number_of_trees : ℚ) / (b.land_patches.length : ℚ)
    else 0
  if current_tree_percentage < target_percentage_of_trees then
    let land_patch := Landpatch.set_position (Treepatch.make patch_id [] false b.prob_ignition) pos
    { b with land_patches := dictInsert b.land_patches land_patch.patch_id land_patch,
             number_of_trees := b.number_of_trees + 1 }
  else
    let land_patch := Landpatch.set_position (Rockpatch.make patch_id [] b.prob_respawn) pos
    { b with land_patches := dictInsert b.land_patches land_patch.patch_id land_patch,
             number_of_rocks := b.number_of_rocks + 1 }

/-- The first loop of GraphBuilder.create_landpatches: one
create_landpatch call per positions key, in dict order. -/
def GraphBuilder.create_patches (b : GraphBuilder) :
    List (ℕ × (ℚ × ℚ)) → GraphBuilder
  | [] => b
  | (patch_id, pos) :: rest =>
      GraphBuilder.create_patches (b.create_landpatch patch_id pos) rest

/-- Resolve a patch id through the shared patch table, as
land_patches[id] does in the source. -/
def Land.patchAtId (heap : List Landpatch) (land_patches : List (ℕ × Addr)) (i : ℕ) :
    Landpatch :=
  heapGet heap ((List.lookup i land_patches).getD heap.length)

/-- Resolve a neighbor id through a patch's own cached neighbor dict, as
every neighbors[id] access in the source does. -/
def Land.resolveNeighbor (heap : List Landpatch) (q : Landpatch) (i : ℕ) : Landpatch :=
  heapGet heap ((List.lookup i q.neighbors).getD heap.length)

/-- Lit state of the patch with a given id after an update result. -/
def litAt (r : Option (Land × ℕ)) (i : ℕ) : Option Bool :=
  r.map (fun x => Treepatch.get_lit_state (Land.patchAtId x.1.heap x.1.land_patches i))

/-- Treestats of the patch with a given id after an update result. -/
def statsAt (r : Option (Land × ℕ)) (i : ℕ) : Option ℤ :=
  r.map (fun x => Treepatch.get_tree_stats (Land.patchAtId x.1.heap x.1.land_patches i))

/-- The operations on one Treepatch that the health-invariant claim
quantifies over. -/
inductive TreeOp where
  | update (roll : ℕ)
  | setTreeStats (stats : ℤ)
  | fightFire (skill : ℤ)
  deriving DecidableEq, Repr

/-- Apply one operation: updates keep the post-state patch (the mutate
signal is handled by the orchestrator, not by the patch itself), and a
fight is performed by a firefighter with the given skill. -/
def applyTreeOp (p : Landpatch) : TreeOp → Landpatch
  | TreeOp.update roll => (Treepatch.update roll p).1
  | TreeOp.setTreeStats s => Treepatch.set_tree_stats p s
  | TreeOp.fightFire s =>
      Firefighter.fight_fire { firefighter_id := 0, avg_skill := s } p

/-- Apply a call sequence left to right. -/
def applyTreeOps (p : Landpatch) (ops : List TreeOp) : Landpatch :=
  ops.foldl applyTreeOp p

/-- Argument restriction under which the health invariant holds:
set_tree_stats only with a non-negative argument (as at every call site in
the repository) and fight_fire only with non-negative skill. -/
def TreeOp.valid : TreeOp → Prop
  | TreeOp.update _ => True
  | TreeOp.setTreeStats s => 0 ≤ s
  | TreeOp.fightFire s => 0 ≤ s

instance : DecidablePred TreeOp.valid := fun op =>
  match op with
  | TreeOp.update _ => isTrue trivial
  | TreeOp.setTreeStats s => inferInstanceAs (Decidable (0 ≤ s))
  | TreeOp.fightFire s => inferInstanceAs (Decidable (0 ≤ s))

/-- A patch that is a Treepatch with health inside the documented range. -/
def treeOk (p : Landpatch) : Prop :=
  Landpatch.get_patch_type p = 1 ∧
  0 ≤ Treepatch.get_tree_stats p ∧ Treepatch.get_tree_stats p ≤ 256

instance : DecidablePred treeOk := fun p =>
  inferInstanceAs (Decidable (Landpatch.get_patch_type p = 1 ∧
    0 ≤ Treepatch.get_tree_stats p ∧ Treepatch.get_tree_stats p ≤ 256))

/-- Pure shadow of the greedy-fill counters of create_landpatch with the
landscape target fixed at 80 percent: from k patches, t trees, r rocks,
perform n further creations and return the final tree and rock counters.
The rational comparison of the source is replaced by the equivalent
cross-multiplied natural-number test (proved equivalent below). -/
def fillCounts : ℕ → ℕ → ℕ → ℕ → ℕ × ℕ
  | _, t, r, 0 => (t, r)
  | k, t, r, n + 1 =>
      if 5 * t < 4 * k ∨ k = 0
      then fillCounts (k + 1) (t + 1) r n
      else fillCounts (k + 1) t (r + 1) n

/-- Fixture for the end-to-end fire-transmission scenario: a 4-cycle of
Treepatches with ids 1-4 (addresses 0-3), neighbor dicts as the builder
wires them from edges (1,2),(2,3),(3,4),(4,1), autocombustion probability
0 on every tree (ignition slot 0), tree 1 set lit externally, no
firefighters, configured probabilities (ignition 0, transmission 100,
respawn 0). -/
def c1tree1 : Landpatch :=
  Treepatch.set_lit_state (Treepatch.make 1 [(2, 1), (4, 3)] false 0) true

/-- Second tree of the C1 cycle, unlit. -/
def c1tree2 : Landpatch := Treepatch.make 2 [(1, 0), (3, 2)] false 0

/-- Third tree of the C1 cycle, unlit. -/
def c1tree3 : Landpatch := Treepatch.make 3 [(2, 1), (4, 3)] false 0

/-- Fourth tree of the C1 cycle, unlit. -/
def c1tree4 : Landpatch := Treepatch.make 4 [(3, 2), (1, 0)] false 0

/-- The C1 Land state before the step. -/
def c1land : Land :=
  { heap := [c1tree1, c1tree2, c1tree3, c1tree4],
    land_patches := [(1, 0), (2, 1), (3, 2), (4, 3)],
    positions := [(1, (0, 0)), (2, (0, 0)), (3, (0, 0)), (4, (0, 0))],
    firefighters := [],
    probabilities := (0, 100, 0) }

/-- One Land.update step on the C1 fixture under a constant random
stream. -/
def c1after : Option (Land × ℕ) := Land.update (fun _ => 100) 10 c1land 0

/-- Heap for the connected 4-cycle of the validate_graph claim. -/
def c2heapCyc : List Landpatch :=
  [Rockpatch.make 1 [(2, 1), (4, 3)] 0, Rockpatch.make 2 [(1, 0), (3, 2)] 0,
   Rockpatch.make 3 [(2, 1), (4, 3)] 0, Rockpatch.make 4 [(3, 2), (1, 0)] 0]

/-- Heap for the same node set split into the two components 1-2 and
3-4. -/
def c2heapDisc : List Landpatch :=
  [Rockpatch.make 1 [(2, 1)] 0, Rockpatch.make 2 [(1, 0)] 0,
   Rockpatch.make 3 [(4, 3)] 0, Rockpatch.make 4 [(3, 2)] 0]

/-- Patch table for both C2 fixtures. -/
def c2table : List (ℕ × Addr) := [(1, 0), (2, 1), (3, 2), (4, 3)]

/-- Positions dict for both C2 fixtures. -/
def c2positions : List (ℕ × (ℚ × ℚ)) :=
  [(1, (0, 0)), (2, (0, 0)), (3, (0, 0)), (4, (0, 0))]

/-- Fixture for the stale-neighbor claim: Treepatch 1 and Treepatch 2 are
mutual neighbors; patch 1 is then mutated through Land.mutate_landpatch. -/
def c3heap : List Landpatch :=
  [Treepatch.make 1 [(2, 1)] false 0, Treepatch.make 2 [(1, 0)] false 0]

/-- Patch table of the C3 fixture. -/
def c3table : List (ℕ × Addr) := [(1, 0), (2, 1)]

/-- Heap and table after mutating patch 1 (address 0). -/
def c3after : List Landpatch × List (ℕ × Addr) :=
  Land.mutate_landpatch c3heap c3table 0

/-- Start tree for the health-invariant claim: fresh unlit Treepatch at
maximum health. -/
def c4tree : Landpatch := Treepatch.make 5 [] false (1 / 10)

/-- Fixture for the firefighter-move claim: the firefighter stands on
patch 1 whose only neighbor is the unlit Treepatch 2; patch 2 in turn
neighbors 1 and 3. -/
def c8p1 : Landpatch := Rockpatch.make 1 [(2, 1)] 0

/-- The single neighbor of the current patch in the C8 fixture. -/
def c8p2 : Landpatch := Treepatch.make 2 [(1, 0), (3, 2)] false 0

/-- A patch adjacent only to patch 2 in the C8 fixture. -/
def c8p3 : Landpatch := Rockpatch.make 3 [] 0

/-- Heap of the C8 fixture. -/
def c8heap : List Landpatch := [c8p1, c8p2, c8p3]

/-- Fixture for the spawn claim: two patches, ids 1 and 2, no
firefighters yet. -/
def c9land : Land :=
  { heap := [Rockpatch.make 1 [(2, 1)] 0, Rockpatch.make 2 [(1, 0)] 0],
    land_patches := [(1, 0), (2, 1)],
    positions := [(1, (0, 0)), (2, (0, 0))],
    firefighters := [],
    probabilities := (0, 0, 0) }

/-- Spawning two firefighters on the C9 fixture under a random stream
that picks the first position key both times. -/
def c9after : Option (Land × ℕ) :=
  Land.spawn_firefighters (fun _ => 0) 2 3 0 c9land

/-- A positions dict with 100 distinct ids for the greedy-fill witness. -/
def c7positions : List (ℕ × (ℚ × ℚ)) :=
  (List.range 100).map (fun i => (i, (0, 0)))

/-- C1: on a connected all-Tree 4-cycle with configured probabilities
(ignition 0, transmission 100, respawn 0) and no firefighters, with
exactly tree 1 lit before the step, one Land.update leaves tree 1 at
health 236 (the claimed drop by 20 does happen) but NO previously-unlit
neighbor becomes lit: trees 2, 3 and 4 all end the step unlit, against
the claimed exactly one.  The transmission code rolls against the
ignition slot and re-ignites only neighbors that are already lit. -/
theorem C1_fire_transmission_evidence :
    statsAt c1after 1 = some 236 ∧ litAt c1after 1 = some true ∧
    litAt c1after 2 = some false ∧ litAt c1after 3 = some false ∧
    litAt c1after 4 = some false := by
  decide

/-- C2: Land.validate_graph answers true on the connected 4-cycle, as
claimed, but also answers true on the same node set split into the two
components 1-2 and 3-4, against the claimed false: its worklist starts
with every position key, so every key is validated no matter what the
edges are. -/
theorem C2_validate_graph_evidence :
    Land.validate_graph 100 c2heapCyc c2positions c2table = some true ∧
    Land.validate_graph 100 c2heapDisc c2positions c2table = some true := by
  decide

/-- C3: after Land.mutate_landpatch replaces Treepatch 1 by its Rockpatch
replacement, the shared patch table resolves id 1 to the replacement
(patch type 0), but patch 2's cached neighbor dict still resolves its
neighbor id 1 to the old object, observing a Treepatch (patch type 1) -
the pre-mutation variant, against the claim. -/
theorem C3_stale_neighbor_evidence :
    Landpatch.get_patch_type (Land.patchAtId c3after.1 c3after.2 1) = 0 ∧
    Landpatch.get_patch_type
      (Land.resolveNeighbor c3after.1 (Land.patchAtId c3after.1 c3after.2 2) 1) = 1 := by
  decide

/-- C8: the firefighter stands on patch 1, whose single neighbor id 2 is
unoccupied, so the claim's precondition holds; yet Firefighter.move
returns 3, which is not a neighbor id of patch 1.  The loop variable of
the lit-neighbor scan shadows the current-patch parameter, so the random
fallback draws from the last neighbor's neighbor ids. -/
theorem C8_move_evidence :
    (2 ∈ c8p1.get_neighbors_id ∧ 2 ∉ ([] : List ℕ)) ∧
    Firefighter.move c8heap c8p1 [] (fun _ => 1) 5 0 = some (3, 1) ∧
    3 ∉ c8p1.get_neighbors_id := by
  decide

/-- C9: spawning the configured two firefighters on a two-patch graph
under a random stream that picks position 1 twice leaves the
position-to-firefighter dict with a single entry: the second spawn
overwrites the first, so the mapping holds one firefighter, not the
claimed exactly two. -/
theorem C9_spawn_evidence :
    c9after.map (fun x => x.1.firefighters.length) = some 1 ∧
    c9after.map (fun x => dictKeys x.1.firefighters) = some [1] := by
  decide

/-- C4 counterexample: from a Tree with health 256 (inside the range),
the single call set_tree_stats(-5) - a sequence the claim quantifies over,
with no firefighter involved - leaves health -5, outside [0, 256]; the
method clamps only at the top. -/
theorem C4_negative_stats_counterexample :
    (0 ≤ Treepatch.get_tree_stats c4tree ∧ Treepatch.get_tree_stats c4tree ≤ 256) ∧
    Treepatch.get_tree_stats (applyTreeOps c4tree [TreeOp.setTreeStats (-5)]) = -5 ∧
    ¬ 0 ≤ Treepatch.get_tree_stats (applyTreeOps c4tree [TreeOp.setTreeStats (-5)]) := by
  decide

/-- C10: for every patch, the replacement built by mutate has its
firefighter-occupancy flag False and its position at the default (0.0,
0.0), whatever flag and position the outgoing patch carried: both mutate
implementations call the subclass constructor, which leaves the base-class
defaults untouched. -/
theorem C10_mutate_resets (p : Landpatch) :
    (Landpatch.mutate p).firefighter = false ∧ (Landpatch.mutate p).position = (0, 0) := by
  cases hk : p.kind <;>
    simp [Landpatch.mutate, hk, Treepatch.make, Rockpatch.make,
      Treepatch.set_tree_stats, tree_stats_max]

/-- C5: one Treepatch.update call on a Tree with health in the documented
range first rolls autocombustion, forcing lit on success; then, reading
the lit flag after the roll: unlit grows by exactly 10 capped at 256 and
returns stay (mutate signal false); lit with health - 20 still at least 0
shrinks by exactly 20 and returns stay; lit with health - 20 below 0
leaves health unchanged and signals mutate-to-Rock. -/
theorem C5_tree_update (prob : ℚ) (lit : Bool) (stats : ℤ) (roll : ℕ) (p : Landpatch)
    (hk : p.kind = PatchKind.tree prob lit stats) (h0 : 0 ≤ stats) (h1 : stats ≤ 256) :
    Treepatch.get_lit_state (Treepatch.update roll p).1
        = (if (roll : ℚ) ≤ prob then true else lit) ∧
    ((if (roll : ℚ) ≤ prob then true else lit) = false →
        (Treepatch.update roll p).2 = false ∧
        Treepatch.get_tree_stats (Treepatch.update roll p).1 = min (stats + 10) 256) ∧
    ((if (roll : ℚ) ≤ prob then true else lit) = true → 0 ≤ stats - 20 →
        (Treepatch.update roll p).2 = false ∧
        Treepatch.get_tree_stats (Treepatch.update roll p).1 = stats - 20) ∧
    ((if (roll : ℚ) ≤ prob then true else lit) = true → stats - 20 < 0 →
        (Treepatch.update roll p).2 = true ∧
        Treepatch.get_tree_stats (Treepatch.update roll p).1 = stats) := by
  simp only [Treepatch.update, hk]
  by_cases hroll : (roll : ℚ) ≤ prob <;>
    cases lit <;>
      simp only [hroll, if_true, if_false, ite_true, ite_false] <;>
        split_ifs with hcut <;>
          simp [Treepatch.get_lit_state, Treepatch.get_tree_stats,
            tree_stats_max, tree_stats_min] at * <;>
            omega

/-- Witness for C5: a fresh unlit tree at health 256 with autocombustion
probability one tenth, rolled with 50, stays unlit. -/
theorem C5_tree_update_witness :
    Treepatch.get_lit_state (Treepatch.update 50 (Treepatch.make 2 [] false (1 / 10))).1 = false := by
  have h := (C5_tree_update (1 / 10) false 256 50 (Treepatch.make 2 [] false (1 / 10))
    rfl (by decide) (by decide)).1
  rw [h, if_neg (by norm_num : ¬ ((50 : ℕ) : ℚ) ≤ 1 / 10)]

theorem dictInsert_lookup {α : Type} (d : List (ℕ × α)) (k : ℕ) (v : α) :
    List.lookup k (dictInsert d k v) = some v := by
  induction d with
  | nil => simp [dictInsert, List.lookup]
  | cons hd tl ih =>
      obtain ⟨k0, v0⟩ := hd
      by_cases h : k0 = k
      · simp [dictInsert, h, List.lookup]
      · have hne : (k == k0) = false := beq_eq_false_iff_ne.mpr (fun hkk => h hkk.symm)
        simp [dictInsert, h, List.lookup, hne, ih]

theorem heapGet_append_length (heap : List Landpatch) (x : Landpatch) :
    heapGet (heap ++ [x]) heap.length = x := by
  induction heap with
  | nil => rfl
  | cons hd tl ih =>
      simpa only [heapGet, List.cons_append, List.length_cons,
        List.getD_cons_succ] using ih

theorem mutate_patch_id (p : Landpatch) :
    (Landpatch.mutate p).patch_id = p.patch_id := by
  cases hk : p.kind <;>
    simp [Landpatch.mutate, hk, Treepatch.make, Rockpatch.make,
      Treepatch.set_tree_stats, tree_stats_max]

theorem mutate_neighbors (p : Landpatch) :
    (Landpatch.mutate p).neighbors = p.neighbors := by
  cases hk : p.kind <;>
    simp [Landpatch.mutate, hk, Treepatch.make, Rockpatch.make,
      Treepatch.set_tree_stats, tree_stats_max]

/-- C6: for every patch in the heap, the replacement built by mutate is of
the opposite variant, keeps the patch id, and keeps exactly the neighbor
id list; and after Land.mutate_landpatch installs it, the shared patch
table resolves that id to a patch whose neighbor ids are still exactly the
original ones. -/
theorem C6_mutation_preserves (heap : List Landpatch) (land_patches : List (ℕ × Addr))
    (a : Addr) :
    (Landpatch.mutate (heapGet heap a)).patch_id = (heapGet heap a).patch_id ∧
    (Landpatch.mutate (heapGet heap a)).get_neighbors_id = (heapGet heap a).get_neighbors_id ∧
    Landpatch.get_patch_type (Landpatch.mutate (heapGet heap a))
      = 1 - Landpatch.get_patch_type (heapGet heap a) ∧
    List.lookup (heapGet heap a).patch_id (Land.mutate_landpatch heap land_patches a).2
      = some heap.length ∧
    (Land.patchAtId (Land.mutate_landpatch heap land_patches a).1
        (Land.mutate_landpatch heap land_patches a).2
        (heapGet heap a).patch_id).get_neighbors_id
      = (heapGet heap a).get_neighbors_id := by
  refine ⟨mutate_patch_id _, ?_, ?_, ?_, ?_⟩
  · simp [Landpatch.get_neighbors_id, mutate_neighbors]
  · cases hk : (heapGet heap a).kind <;>
      simp [Landpatch.mutate, hk, Landpatch.get_patch_type, Treepatch.make,
        Rockpatch.make, Treepatch.set_tree_stats, tree_stats_max]
  · show List.lookup (heapGet heap a).patch_id
      (dictInsert land_patches (Landpatch.mutate (heapGet heap a)).patch_id heap.length)
      = some heap.length
    rw [mutate_patch_id]
    exact dictInsert_lookup _ _ _
  · show (Land.patchAtId (heap ++ [Landpatch.mutate (heapGet heap a)])
        (dictInsert land_patches (Landpatch.mutate (heapGet heap a)).patch_id heap.length)
        (heapGet heap a).patch_id).get_neighbors_id
      = (heapGet heap a).get_neighbors_id
    rw [Land.patchAtId, mutate_patch_id, dictInsert_lookup]
    simp only [Option.getD_some]
    rw [heapGet_append_length]
    simp [Landpatch.get_neighbors_id, mutate_neighbors]

theorem applyTreeOp_preserves (q : Landpatch) (op : TreeOp) (hq : treeOk q)
    (hv : op.valid) :
    treeOk (applyTreeOp q op) ∧
    (Treepatch.get_tree_stats (applyTreeOp q op) = 256 →
      Treepatch.get_lit_state (applyTreeOp q op) = false) := by
  obtain ⟨hq1, hq2, hq3⟩ := hq
  cases hk : q.kind with
  | rock prob => simp [Landpatch.get_patch_type, hk] at hq1
  | tree prob lit stats =>
      have hstats : Treepatch.get_tree_stats q = stats := by
        simp [Treepatch.get_tree_stats, hk]
      rw [hstats] at hq2 hq3
      cases op with
      | update roll =>
          simp only [applyTreeOp, Treepatch.update, hk]
          by_cases hroll : (roll : ℚ) ≤ prob <;>
            cases lit <;>
              simp only [hroll, if_true, if_false, ite_true, ite_false] <;>
                split_ifs with hcut <;>
                  simp [treeOk, Landpatch.get_patch_type, Treepatch.get_lit_state,
                    Treepatch.get_tree_stats, tree_stats_max, tree_stats_min] at * <;>
                    omega
      | setTreeStats s =>
          simp only [TreeOp.valid] at hv
          simp only [applyTreeOp, Treepatch.set_tree_stats, hk]
          split_ifs with hcap <;>
            simp [treeOk, Landpatch.get_patch_type, Treepatch.get_lit_state,
              Treepatch.get_tree_stats, tree_stats_max] at * <;>
              omega
      | fightFire s =>
          simp only [TreeOp.valid] at hv
          simp only [applyTreeOp, Firefighter.fight_fire, hstats]
          have hlit : Treepatch.get_lit_state q = lit := by
            simp [Treepatch.get_lit_state, hk]
          rw [hlit]
          cases lit with
          | false =>
              simpa [treeOk, Landpatch.get_patch_type, Treepatch.get_lit_state,
                Treepatch.get_tree_stats, hk, hstats] using And.intro hq2 hq3
          | true =>
              simp only [Bool.true_eq_false, ite_false]
              split_ifs with hsum <;>
                simp [Treepatch.set_tree_stats, hk, treeOk, Landpatch.get_patch_type,
                  Treepatch.get_lit_state, Treepatch.get_tree_stats, tree_stats_max] <;>
                  split_ifs with hcap <;>
                    simp [treeOk, Landpatch.get_patch_type, Treepatch.get_lit_state,
                      Treepatch.get_tree_stats, tree_stats_max] <;>
                      omega

theorem applyTreeOps_ok (ops : List TreeOp) :
    ∀ p : Landpatch, treeOk p → (∀ op ∈ ops, TreeOp.valid op) →
      treeOk (applyTreeOps p ops) := by
  induction ops with
  | nil => intro p hp _; exact hp
  | cons op rest ih =>
      intro p hp hops
      have h1 := applyTreeOp_preserves p op hp (hops op (by simp))
      exact ih (applyTreeOp p op) h1.1 (fun o ho => hops o (by simp [ho]))

/-- C4 (amended): for every Tree starting with health in 0..256 and every
sequence of Treepatch.update, Treepatch.set_tree_stats with non-negative
argument (as at every call site in the repository; set_tree_stats clamps
only at the top, so a negative argument escapes the range) and
Firefighter.fight_fire with non-negative skill: the patch stays a Tree
with health in 0..256; after each individual operation, health 256 forces
the lit flag off; and fight_fire, on a Tree with health at most 256 and
non-negative skill, never decreases health. -/
theorem C4_health_invariant (p0 : Landpatch) (ops : List TreeOp)
    (h0 : treeOk p0) (hops : ∀ op ∈ ops, TreeOp.valid op) :
    treeOk (applyTreeOps p0 ops) ∧
    (∀ n : ℕ, ∀ hn : n < ops.length,
      Treepatch.get_tree_stats (applyTreeOps p0 (ops.take (n + 1))) = 256 →
      Treepatch.get_lit_state (applyTreeOps p0 (ops.take (n + 1))) = false) ∧
    (∀ q : Landpatch, treeOk q → ∀ f : Firefighter, 0 ≤ f.avg_skill →
      Treepatch.get_tree_stats q ≤ Treepatch.get_tree_stats (Firefighter.fight_fire f q)) := by
  refine ⟨applyTreeOps_ok ops p0 h0 hops, ?_, ?_⟩
  · intro n hn
    have htake : ops.take (n + 1) = ops.take n ++ [ops.get ⟨n, hn⟩] := by
      rw [List.take_succ]
      congr 1
      rw [List.getElem?_eq_getElem hn]
      rfl
    rw [htake]
    have hfold : applyTreeOps p0 (ops.take n ++ [ops.get ⟨n, hn⟩])
        = applyTreeOp (applyTreeOps p0 (ops.take n)) (ops.get ⟨n, hn⟩) := by
      simp only [applyTreeOps, List.foldl_append, List.foldl_cons, List.foldl_nil]
    rw [hfold]
    have hprev : treeOk (applyTreeOps p0 (ops.take n)) :=
      applyTreeOps_ok (ops.take n) p0 h0 (fun o ho => hops o (List.take_subset n ops ho))
    exact (applyTreeOp_preserves _ _ hprev (hops _ (ops.get_mem _ _))).2
  · intro q hq f hskill
    obtain ⟨hq1, hq2, hq3⟩ := hq
    cases hk : q.kind with
    | rock prob => simp [Landpatch.get_patch_type, hk] at hq1
    | tree prob lit stats =>
        have hstats : Treepatch.get_tree_stats q = stats := by
          simp [Treepatch.get_tree_stats, hk]
        rw [hstats] at hq2 hq3
        simp only [Firefighter.fight_fire, hstats]
        have hlit : Treepatch.get_lit_state q = lit := by
          simp [Treepatch.get_lit_state, hk]
        rw [hlit]
        cases lit with
        | false => simp [hstats]
        | true =>
            simp only [Bool.true_eq_false, ite_false]
            by_cases hsum : stats + f.avg_skill ≤ 256
            · rw [if_pos hsum]
              simp only [Treepatch.set_tree_stats, hk]
              split_ifs with hcap <;>
                simp [Treepatch.get_tree_stats, tree_stats_max] <;> omega
            · rw [if_neg hsum]
              simp only [Treepatch.set_tree_stats, hk]
              split_ifs with hcap <;>
                simp [Treepatch.get_tree_stats, tree_stats_max] <;> omega

/-- Witness for C4 (amended): a fresh tree at health 256 stays a Tree
with health in range over a sample update, fight and set sequence. -/
theorem C4_health_invariant_witness :
    treeOk (applyTreeOps c4tree
      [TreeOp.update 50, TreeOp.fightFire 7, TreeOp.setTreeStats 100]) :=
  (C4_health_invariant c4tree
    [TreeOp.update 50, TreeOp.fightFire 7, TreeOp.setTreeStats 100]
    (by decide) (by decide)).1

theorem dictInsert_keys_of_not_mem {α : Type} (d : List (ℕ × α)) (k : ℕ) (v : α)
    (h : k ∉ dictKeys d) :
    dictKeys (dictInsert d k v) = dictKeys d ++ [k] := by
  induction d with
  | nil => simp [dictInsert, dictKeys]
  | cons hd tl ih =>
      obtain ⟨k0, v0⟩ := hd
      simp only [dictKeys, List.map_cons, List.mem_cons, not_or] at h
      have hne : ¬ k0 = k := fun hEq => h.1 hEq.symm
      have ih2 := ih (by simpa [dictKeys] using h.2)
      simp only [dictKeys] at ih2
      simp [dictInsert, hne, dictKeys, ih2]

theorem create_landpatch_landscape (b : GraphBuilder) (pid : ℕ) (pos : ℚ × ℚ) :
    (b.create_landpatch pid pos).landscape = b.landscape := by
  simp only [GraphBuilder.create_landpatch]
  split_ifs <;> rfl

theorem create_landpatch_keys (b : GraphBuilder) (pid : ℕ) (pos : ℚ × ℚ)
    (h : pid ∉ dictKeys b.land_patches) :
    dictKeys (b.create_landpatch pid pos).land_patches = dictKeys b.land_patches ++ [pid] := by
  simp only [GraphBuilder.create_landpatch]
  split_ifs <;>
    simp [Landpatch.set_position, Treepatch.make, Rockpatch.make,
      dictInsert_keys_of_not_mem _ _ _ h]

theorem create_landpatch_length (b : GraphBuilder) (pid : ℕ) (pos : ℚ × ℚ)
    (h : pid ∉ dictKeys b.land_patches) :
    (b.create_landpatch pid pos).land_patches.length = b.land_patches.length + 1 := by
  have hk := congrArg List.length (create_landpatch_keys b pid pos h)
  simpa [dictKeys] using hk

theorem ratio_cond_iff (k t : ℕ) :
    ((if 0 < k then (t : ℚ) / (k : ℚ) else 0) < (80 : ℚ) / 100)
      ↔ (5 * t < 4 * k ∨ k = 0) := by
  by_cases hk : 0 < k
  · rw [if_pos hk, div_lt_div_iff₀ (by exact_mod_cast hk) (by norm_num)]
    constructor
    · intro h
      left
      have h2 : (t * 100 : ℕ) < 80 * k := by exact_mod_cast h
      omega
    · intro h
      have h5 : 5 * t < 4 * k := by
        rcases h with h | h
        · exact h
        · omega
      have h2 : (t * 100 : ℕ) < 80 * k := by omega
      exact_mod_cast h2
  · have hk0 : k = 0 := by omega
    subst hk0
    norm_num

theorem create_landpatch_counts_pos (b : GraphBuilder) (pid : ℕ) (pos : ℚ × ℚ)
    (hc : (if 0 < b.land_patches.length
           then (b.number_of_trees : ℚ) / (b.land_patches.length : ℚ) else 0)
          < b.landscape / 100) :
    (b.create_landpatch pid pos).number_of_trees = b.number_of_trees + 1 ∧
    (b.create_landpatch pid pos).number_of_rocks = b.number_of_rocks := by
  simp only [GraphBuilder.create_landpatch]
  rw [if_pos hc]
  exact ⟨rfl, rfl⟩

theorem create_landpatch_counts_neg (b : GraphBuilder) (pid : ℕ) (pos : ℚ × ℚ)
    (hc : ¬ (if 0 < b.land_patches.length
             then (b.number_of_trees : ℚ) / (b.land_patches.length : ℚ) else 0)
            < b.landscape / 100) :
    (b.create_landpatch pid pos).number_of_trees = b.number_of_trees ∧
    (b.create_landpatch pid pos).number_of_rocks = b.number_of_rocks + 1 := by
  simp only [GraphBuilder.create_landpatch]
  rw [if_neg hc]
  exact ⟨rfl, rfl⟩

theorem create_patches_counters (ps : List (ℕ × (ℚ × ℚ))) :
    ∀ b : GraphBuilder, b.landscape = 80 →
      (∀ x ∈ ps, x.1 ∉ dictKeys b.land_patches) →
      (ps.map Prod.fst).Nodup →
      (GraphBuilder.create_patches b ps).number_of_trees
          = (fillCounts b.land_patches.length b.number_of_trees b.number_of_rocks ps.length).1 ∧
      (GraphBuilder.create_patches b ps).number_of_rocks
          = (fillCounts b.land_patches.length b.number_of_trees b.number_of_rocks ps.length).2 := by
  induction ps with
  | nil => intro b _ _ _; exact ⟨rfl, rfl⟩
  | cons hd tl ih =>
      intro b hl hfresh hnodup
      obtain ⟨pid, pos⟩ := hd
      have hfresh0 : pid ∉ dictKeys b.land_patches := hfresh (pid, pos) (by simp)
      have hlen := create_landpatch_length b pid pos hfresh0
      have hkeys := create_landpatch_keys b pid pos hfresh0
      have hl2 : (b.create_landpatch pid pos).landscape = 80 := by
        rw [create_landpatch_landscape, hl]
      have hpid_tl : pid ∉ tl.map Prod.fst := by
        simp only [List.map_cons, List.nodup_cons] at hnodup
        exact hnodup.1
      have hfresh2 : ∀ x ∈ tl, x.1 ∉ dictKeys (b.create_landpatch pid pos).land_patches := by
        intro x hx
        rw [hkeys]
        simp only [List.mem_append, List.mem_singleton, not_or]
        refine ⟨hfresh x (by simp [hx]), ?_⟩
        intro hEq
        exact hpid_tl (hEq ▸ List.mem_map_of_mem Prod.fst hx)
      have hnodup2 : (tl.map Prod.fst).Nodup := by
        simp only [List.map_cons, List.nodup_cons] at hnodup
        exact hnodup.2
      have hstep : GraphBuilder.create_patches b ((pid, pos) :: tl)
          = GraphBuilder.create_patches (b.create_landpatch pid pos) tl := rfl
      rw [hstep]
      obtain ⟨ht, hr⟩ := ih (b.create_landpatch pid pos) hl2 hfresh2 hnodup2
      rw [ht, hr, hlen]
      by_cases hc : (if 0 < b.land_patches.length
          then (b.number_of_trees : ℚ) / (b.land_patches.length : ℚ) else 0)
          < b.landscape / 100
      · obtain ⟨ct, cr⟩ := create_landpatch_counts_pos b pid pos hc
        rw [ct, cr]
        rw [hl] at hc
        have hfill := (ratio_cond_iff b.land_patches.length b.number_of_trees).mp hc
        simp only [List.length_cons, fillCounts]
        rw [if_pos hfill]
        exact ⟨rfl, rfl⟩
      · obtain ⟨ct, cr⟩ := create_landpatch_counts_neg b pid pos hc
        rw [ct, cr]
        rw [hl] at hc
        have hfill := fun hcon =>
          hc ((ratio_cond_iff b.land_patches.length b.number_of_trees).mpr hcon)
        simp only [List.length_cons, fillCounts]
        rw [if_neg hfill]
        exact ⟨rfl, rfl⟩

/-- C7: for every positions dict with exactly 100 distinct ids and the
landscape ratio configured at 80 percent, the builder's patch-creation
loop, comparing the running tree ratio with the target before each
creation, produces exactly 80 Treepatches and 20 Rockpatches. -/
theorem C7_greedy_fill (positions : List (ℕ × (ℚ × ℚ)))
    (hlen : positions.length = 100) (hnodup : (positions.map Prod.fst).Nodup)
    (prob_ignition prob_respawn : ℚ) :
    ((GraphBuilder.init 80 prob_ignition prob_respawn).create_patches positions).number_of_trees = 80 ∧
    ((GraphBuilder.init 80 prob_ignition prob_respawn).create_patches positions).number_of_rocks = 20 := by
  obtain ⟨ht, hr⟩ := create_patches_counters positions
    (GraphBuilder.init 80 prob_ignition prob_respawn) rfl
    (by intro x _; simp [GraphBuilder.init, dictKeys]) hnodup
  rw [ht, hr]
  simp only [GraphBuilder.init, List.length_nil]
  rw [hlen]
  exact ⟨by decide, by decide⟩

/-- Witness for C7: on the positions dict with ids 0 to 99 the builder
creates 80 trees and 20 rocks. -/
theorem C7_greedy_fill_witness :
    ((GraphBuilder.init 80 0 0).create_patches c7positions).number_of_trees = 80 ∧
    ((GraphBuilder.init 80 0 0).create_patches c7positions).number_of_rocks = 20 :=
  C7_greedy_fill c7positions (by decide) (by decide) 0 0

end GraphForest
